import Mathlib

/-!
# github-pokemon: the repository worker, the listing loop and the worker pool

Shallow embedding of `cmd/root.go`.

* Go strings and byte slices are modelled as `String`; `strings.Contains` is the
  substring test on the underlying character lists.
* The outside world seen by `processRepository` (the `os.Stat` probe and the
  `git` subprocesses) is an explicit oracle, `Host`; every subprocess started is
  recorded in a trace.
* `filepath.Join` belongs to the Go standard library and is taken as a parameter.
* The goroutines of the worker pool are modelled as an interleaving of atomic
  actions on a `PoolState`; a schedule is a list of such actions.
* Text printed to standard output is not modelled.
-/

namespace GithubPokemon

/-! ## Data model -/

/-- Repository descriptor: the values returned by the getters `GetName`,
`GetArchived`, `GetSSHURL` and `GetCloneURL` of `github.Repository`. -/
structure Repository where
  name : String
  archived : Bool
  sshURL : String
  cloneURL : String
deriving DecidableEq, Repr

/-- Outcome of `os.Stat(repoPath)` as far as `os.IsNotExist` can tell:
no error, a does-not-exist error, or any other error. -/
inductive Probe where
  | found
  | notExist
  | otherError
deriving DecidableEq, Repr

/-- One `exec.Command(prog, args...)` together with its `Dir` field. -/
structure Invocation where
  prog : String
  args : List String
  dir : Option String
deriving DecidableEq, Repr

/-- What running a subprocess gives back: the error of `Run` / `CombinedOutput`
(`none` for nil, otherwise its text) and the captured combined output. -/
structure ProcResult where
  err : Option String
  output : String
deriving DecidableEq, Repr

/-- The outside world as seen from `processRepository`. -/
structure Host where
  stat : String → Probe
  exec : Invocation → ProcResult

/-- Return values of `processRepository`, with the trace of subprocesses it ran. -/
structure Outcome where
  success : Bool
  message : String
  trace : List Invocation
deriving DecidableEq, Repr

/-! ## Strings -/

/-- Substring test on character lists. -/
def containsChars : List Char → List Char → Bool
  | [], sub => sub.isEmpty
  | c :: cs, sub => sub.isPrefixOf (c :: cs) || containsChars cs sub

/-- Go `strings.Contains(s, sub)`. -/
def stringsContains (s sub : String) : Bool :=
  containsChars s.data sub.data

/-! ## processRepository -/

/-- The condition of the `if` guarding the remediation text (root.go 163-164 and
195-196), as a function of the string that is searched. -/
def hasAuthMarker (s : String) : Bool :=
  stringsContains s "authenticity" || stringsContains s "permission denied" ||
    stringsContains s "could not read Username" || stringsContains s "auth"

/-- The text appended at root.go 165-169 and 197-201. -/
def remediation : String :=
  "\n\nAuthentication error detected. Please ensure:\n" ++
  "1. Your SSH key is set up correctly with GitHub: https://docs.github.com/en/authentication/connecting-to-github-with-ssh\n" ++
  "2. Your GITHUB_TOKEN has sufficient permissions\n" ++
  "3. For SSH: Your SSH agent is running (\x27eval $(ssh-agent -s)\x27)\n" ++
  "4. For HTTPS: You may need to configure credential helper (\x27git config --global credential.helper cache\x27)"

/-- Invocation `git clone <url> <repoPath>` (root.go 154). -/
def cloneInvocation (url repoPath : String) : Invocation :=
  ⟨"git", ["clone", url, repoPath], none⟩

/-- Invocation `git fetch --all` with `Dir = repoPath` (root.go 186-187). -/
def fetchInvocation (repoPath : String) : Invocation :=
  ⟨"git", ["fetch", "--all"], some repoPath⟩

/-- Invocation `git status -sb` with `Dir = repoPath` (root.go 212-213). -/
def statusInvocation (repoPath : String) : Invocation :=
  ⟨"git", ["status", "-sb"], some repoPath⟩

/-- Clone URL chosen at root.go 145-148. -/
def pickCloneURL (repo : Repository) : String :=
  if repo.sshURL = "" then repo.cloneURL else repo.sshURL

/-- Model of `processRepository` (root.go 139-222). -/
def processRepository (host : Host) (repo : Repository) (repoPath : String)
    (skipUpdate verbose : Bool) : Outcome :=
  let repoName := repo.name
  match host.stat repoPath with
  | Probe.notExist =>
    let cloneURL := pickCloneURL repo
    let inv := cloneInvocation cloneURL repoPath
    let res := host.exec inv
    match res.err with
    | some e =>
      let errMsg := "Error cloning repository " ++ repoName ++ ": " ++ e ++ "\n" ++ res.output
      let errMsg := if hasAuthMarker errMsg then errMsg ++ remediation else errMsg
      ⟨false, errMsg, [inv]⟩
    | none => ⟨true, "Successfully cloned repository: " ++ repoName, [inv]⟩
  | _ =>
    if skipUpdate then
      if verbose then
        ⟨true, "Skipping update for existing repository: " ++ repoName, []⟩
      else
        ⟨true, "Repository exists (skipping): " ++ repoName, []⟩
    else
      let fetchInv := fetchInvocation repoPath
      let fetchRes := host.exec fetchInv
      match fetchRes.err with
      | some e =>
        let errMsg := "Warning: Failed to fetch for repository " ++ repoName ++ ": " ++ e ++
          "\n" ++ fetchRes.output
        let errMsg := if hasAuthMarker fetchRes.output then errMsg ++ remediation else errMsg
        ⟨false, errMsg, [fetchInv]⟩
      | none =>
        let successMsg := "Successfully fetched updates for " ++ repoName
        if verbose then
          let statusInv := statusInvocation repoPath
          let statusRes := host.exec statusInv
          match statusRes.err with
          | none =>
            ⟨true, successMsg ++ ("\nStatus for " ++ repoName ++ ":\n" ++ statusRes.output),
              [fetchInv, statusInv]⟩
          | some _ => ⟨true, successMsg, [fetchInv, statusInv]⟩
        else
          ⟨true, successMsg, [fetchInv]⟩

/-! ## worker -/

/-- Record sent on the results channel (root.go 126-134). -/
structure Result where
  repoName : String
  success : Bool
  message : String
deriving DecidableEq, Repr

/-- Body of the `for repo := range jobs` loop of `worker` (root.go 119-134): the
record that is sent on the results channel, and the subprocesses run meanwhile.
`join` stands for `filepath.Join`. -/
def workerBody (join : String → String → String) (targetPath : String)
    (skipUpdate verbose : Bool) (host : Host) (repo : Repository) : Result × List Invocation :=
  let repoName := repo.name
  let repoPath := join targetPath repoName
  let out := processRepository host repo repoPath skipUpdate verbose
  (⟨repoName, out.success, out.message⟩, out.trace)

/-! ## runRootCommand: configuration and environment -/

/-- The flag variables read by `runRootCommand` (root.go 33-40). -/
structure Config where
  organization : String
  targetPath : String
  skipUpdate : Bool
  verbose : Bool
  parallelLimit : Int

/-- Answer to one `client.Repositories.ListByOrg` call: an error (its text), or the
repositories of the page and the `NextPage` field of the response. -/
inductive ListResponse where
  | failure (e : String)
  | page (repos : List Repository) (nextPage : Int)
deriving DecidableEq, Repr

/-- What `runRootCommand` asks of its environment. `lookPath` and `mkdirAll` give the error
of `exec.LookPath` and `os.MkdirAll` (`none` for nil); `getenv` is `os.Getenv`;
`server n p` is the answer to the `n`-th listing call (counted from 0) when it asks for
page `p`; `join` is `filepath.Join`. -/
structure Env where
  lookPath : String → Option String
  mkdirAll : String → Option String
  getenv : String → String
  server : Nat → Int → ListResponse
  join : String → String → String

/-! ## The listing loop -/

/-- The `for` loop at root.go 256-266. `call` counts the calls made so far, `page` is
`opt.Page`, `allRepos` the accumulator and `requested` the pages asked for so far. The result
is `none` when the fuel runs out; otherwise the wrapped error or the accumulated list,
together with the pages that were requested, in call order. -/
def listLoop (server : Nat → Int → ListResponse) :
    Nat → Nat → Int → List Repository → List Int → Option (Except String (List Repository) × List Int)
  | 0, _, _, _, _ => none
  | fuel + 1, call, page, allRepos, requested =>
    match server call page with
    | ListResponse.failure e =>
      some (Except.error ("failed to list repositories: " ++ e), requested ++ [page])
    | ListResponse.page repos nextPage =>
      if nextPage = 0 then
        some (Except.ok (allRepos ++ repos), requested ++ [page])
      else
        listLoop server fuel (call + 1) nextPage (allRepos ++ repos) (requested ++ [page])

/-- The server answers the successive requests of the loop, starting with call number `call`
asking for page `page`, with the given pages: every page but the last carries a non-zero
cursor and the last one carries the cursor zero. -/
def servesPages (server : Nat → Int → ListResponse) :
    Nat → Int → List (List Repository × Int) → Bool
  | _, _, [] => false
  | call, page, [p] => decide (server call page = ListResponse.page p.1 p.2) && decide (p.2 = 0)
  | call, page, p :: q :: rest =>
    decide (server call page = ListResponse.page p.1 p.2) && decide (p.2 ≠ 0) &&
      servesPages server (call + 1) p.2 (q :: rest)

/-- The server answers the successive requests of the loop with the given pages, each with a
non-zero cursor, and then fails the next request with error text `e`. -/
def servesThenFails (server : Nat → Int → ListResponse) (e : String) :
    Nat → Int → List (List Repository × Int) → Bool
  | call, page, [] => decide (server call page = ListResponse.failure e)
  | call, page, p :: rest =>
    decide (server call page = ListResponse.page p.1 p.2) && decide (p.2 ≠ 0) &&
      servesThenFails server e (call + 1) p.2 rest

/-! ## Starting the workers -/

/-- Go `int` arithmetic on a 64-bit platform: the result of an operation wraps around into
the range from `-2^63` to `2^63 - 1` (`2^63 = 9223372036854775808`). -/
def wrapInt (x : Int) : Int :=
  (x + 9223372036854775808) % 18446744073709551616 - 9223372036854775808

/-- The assignment at root.go 286-288. -/
def coerceParallel (parallelLimit : Int) : Int :=
  if parallelLimit ≤ 0 then 5 else parallelLimit

/-- The loop `for w := 1; w <= parallelLimit; w++ { go worker(...) }` (root.go 301-303):
`w` is the loop counter and `started` the number of `go` statements executed so far. The
result is `none` when the fuel runs out, otherwise the number of workers started. -/
def spawnLoop (parallelLimit : Int) : Nat → Int → Nat → Option Nat
  | 0, _, _ => none
  | fuel + 1, w, started =>
    if w ≤ parallelLimit then spawnLoop parallelLimit fuel (wrapInt (w + 1)) (started + 1)
    else some started

/-! ## The worker pool -/

/-- Where a `worker` goroutine stands: waiting at `range jobs`, holding a job it has received
and not yet answered, or returned. -/
inductive WorkerState where
  | idle
  | busy (repo : Repository)
  | exited
deriving DecidableEq, Repr

/-- State of the pool between the creation of the workers and the summary. -/
structure PoolState where
  /-- capacity of both channels, `nonArchivedCount` -/
  cap : Nat
  /-- descriptors the loop at root.go 306-308 has not sent yet -/
  toSend : List Repository
  /-- buffer of the `jobs` channel -/
  jobs : List Repository
  /-- whether `close(jobs)` has run -/
  closed : Bool
  workers : List WorkerState
  /-- buffer of the `results` channel -/
  results : List Result
  /-- records received by the loop at root.go 316-329, in order of arrival -/
  drained : List Result
  errorCount : Nat
  authErrors : Bool
  /-- descriptors on which `worker` has run `processRepository`, in order of the calls -/
  calls : List Repository
  /-- subprocesses started by those calls, in the same order -/
  invocations : List Invocation
deriving DecidableEq, Repr

/-- One atomic step of one goroutine. `send`, `close` and `drain` are steps of
`runRootCommand`; `recv i`, `finish i host` and `exit i` are steps of worker `i`: it receives
a job, it runs `processRepository` against `host` and sends the result, it leaves the loop. -/
inductive Action where
  | send
  | close
  | recv (i : Nat)
  | finish (i : Nat) (host : Host)
  | exit (i : Nat)
  | drain

/-- State of the pool right after root.go 301-303. -/
def initPool (nonArchivedRepos : List Repository) (workers : Nat) : PoolState :=
  { cap := nonArchivedRepos.length, toSend := nonArchivedRepos, jobs := [], closed := false,
    workers := List.replicate workers WorkerState.idle, results := [], drained := [],
    errorCount := 0, authErrors := false, calls := [], invocations := [] }

/-- Effect of an action, `none` when the goroutine cannot take that step in that state (it is
blocked on a channel, or it is elsewhere in its code). -/
def poolStep (cfg : Config) (join : String → String → String) (s : PoolState) :
    Action → Option PoolState
  | Action.send =>
    match s.toSend with
    | repo :: rest =>
      if s.jobs.length < s.cap then some { s with toSend := rest, jobs := s.jobs ++ [repo] }
      else none
    | [] => none
  | Action.close =>
    if s.toSend = [] ∧ s.closed = false then some { s with closed := true } else none
  | Action.recv i =>
    match s.workers[i]?, s.jobs with
    | some WorkerState.idle, repo :: rest =>
      some { s with jobs := rest, workers := s.workers.set i (WorkerState.busy repo) }
    | _, _ => none
  | Action.finish i host =>
    match s.workers[i]? with
    | some (WorkerState.busy repo) =>
      if s.results.length < s.cap then
        let out := workerBody join cfg.targetPath cfg.skipUpdate cfg.verbose host repo
        some { s with workers := s.workers.set i WorkerState.idle,
                      results := s.results ++ [out.1],
                      calls := s.calls ++ [repo],
                      invocations := s.invocations ++ out.2 }
      else none
    | _ => none
  | Action.exit i =>
    match s.workers[i]?, s.jobs with
    | some WorkerState.idle, [] =>
      if s.closed then some { s with workers := s.workers.set i WorkerState.exited } else none
    | _, _ => none
  | Action.drain =>
    match s.results with
    | result :: rest =>
      if s.closed = true ∧ s.drained.length < s.cap then
        some { s with
          results := rest, drained := s.drained ++ [result],
          errorCount := if result.success then s.errorCount else s.errorCount + 1,
          authErrors :=
            if result.success then s.authErrors
            else if stringsContains result.message "Authentication error detected" then true
            else s.authErrors }
      else none
    | [] => none

/-- Run a schedule; `none` when one of its actions cannot be taken. -/
def runPool (cfg : Config) (join : String → String → String) :
    PoolState → List Action → Option PoolState
  | s, [] => some s
  | s, a :: rest =>
    match poolStep cfg join s a with
    | some s' => runPool cfg join s' rest
    | none => none

/-- Descriptors held by the workers that have received a job and not yet sent its result. -/
def inflight : List WorkerState → List Repository
  | [] => []
  | WorkerState.busy repo :: ws => repo :: inflight ws
  | _ :: ws => inflight ws

/-- The schedule in which `runRootCommand` sends the `n` jobs and closes the channel, and
worker 0 then takes the jobs one at a time, against the given hosts, each result being
received before the next job is taken. -/
def seqSchedule (n : Nat) (hosts : List Host) : List Action :=
  List.replicate n Action.send ++ Action.close ::
    hosts.flatMap (fun host => [Action.recv 0, Action.finish 0 host, Action.drain])

/-- Invariant of the pool for the batch `batch`: every descriptor of the batch is still to be
sent, or waits in the jobs channel, or is held by a worker, or has been processed; the
results received so far followed by those waiting in the results channel are, in order, what
`workerBody` returned for the processed descriptors against some hosts, and the subprocesses
recorded are the ones those calls started; the channels are sized for the batch. -/
def PoolInv (cfg : Config) (join : String → String → String) (batch : List Repository)
    (s : PoolState) : Prop :=
  (s.toSend : Multiset Repository) + (s.jobs : Multiset Repository) +
      (inflight s.workers : Multiset Repository) + (s.calls : Multiset Repository) =
    (batch : Multiset Repository) ∧
  (∃ hosts : List Host, hosts.length = s.calls.length ∧
    s.drained ++ s.results =
      List.zipWith
        (fun repo host => (workerBody join cfg.targetPath cfg.skipUpdate cfg.verbose host repo).1)
        s.calls hosts ∧
    s.invocations =
      (List.zipWith
        (fun repo host => (workerBody join cfg.targetPath cfg.skipUpdate cfg.verbose host repo).2)
        s.calls hosts).flatten) ∧
  s.cap = batch.length

/-- The loop at root.go 316-329 has received all its results: the summary is next. -/
def atSummary (s : PoolState) : Bool :=
  s.closed && decide (s.drained.length = s.cap)

/-! ## runRootCommand -/

/-- What a run of `runRootCommand` did: the error it returned (`none` for nil), the pages it
requested from the listing endpoint, the descriptors listed, the number of workers started
and, when the summary was reached, the state of the pool there. -/
structure RunResult where
  err : Option String
  requested : List Int
  allRepos : List Repository
  workers : Nat
  pool : Option PoolState
deriving DecidableEq, Repr

/-- The filter at root.go 269-274. -/
def nonArchived (allRepos : List Repository) : List Repository :=
  allRepos.filter (fun repo => !repo.archived)

/-- Model of `runRootCommand` (root.go 224-350). `fuel` bounds the iterations of the listing
loop and of the loop that starts the workers; `sched` is the interleaving of the goroutines
of the pool. The result is `none` when the fuel runs out or when the schedule cannot be
followed up to the summary. -/
def runRootCommand (cfg : Config) (env : Env) (fuel : Nat) (sched : List Action) :
    Option RunResult :=
  match env.lookPath "git" with
  | some e => some ⟨some ("git is not installed or not in PATH: " ++ e), [], [], 0, none⟩
  | none =>
    match env.mkdirAll cfg.targetPath with
    | some e => some ⟨some ("failed to create target directory: " ++ e), [], [], 0, none⟩
    | none =>
      if env.getenv "GITHUB_TOKEN" = "" then
        some ⟨some "GITHUB_TOKEN environment variable not set. Please set it with: export GITHUB_TOKEN=\"your-personal-access-token\"",
          [], [], 0, none⟩
      else
        match listLoop env.server fuel 0 0 [] [] with
        | none => none
        | some (Except.error e, requested) => some ⟨some e, requested, [], 0, none⟩
        | some (Except.ok allRepos, requested) =>
          if (nonArchived allRepos).length = 0 then
            some ⟨none, requested, allRepos, 0, none⟩
          else
            match spawnLoop (coerceParallel cfg.parallelLimit) fuel 1 0 with
            | none => none
            | some workers =>
              match runPool cfg env.join (initPool (nonArchived allRepos) workers) sched with
              | none => none
              | some s =>
                if atSummary s then some ⟨none, requested, allRepos, workers, some s⟩
                else none

/-! ## Fixtures used in the examples -/

/-- Host used in examples: the probe and every subprocess are fixed. -/
def constHost (p : Probe) (r : ProcResult) : Host :=
  ⟨fun _ => p, fun _ => r⟩

def demoRepoA : Repository := ⟨"a", false, "git@h:acme/a.git", "https://h/acme/a.git"⟩

def demoRepoB : Repository := ⟨"b", true, "git@h:acme/b.git", "https://h/acme/b.git"⟩

def demoRepoC : Repository := ⟨"c", false, "", "https://h/acme/c.git"⟩

/-- Listing server with two pages: `a` and `b` on the first, `c` on the second. -/
def demoServer : Nat → Int → ListResponse := fun call page =>
  if call = 0 ∧ page = 0 then ListResponse.page [demoRepoA, demoRepoB] 2
  else if call = 1 ∧ page = 2 then ListResponse.page [demoRepoC] 0
  else ListResponse.failure "404 Not Found"

/-- Listing server that answers the first call and fails the second. -/
def demoServerDown : Nat → Int → ListResponse := fun call page =>
  if call = 0 ∧ page = 0 then ListResponse.page [demoRepoA, demoRepoB] 2
  else ListResponse.failure "503 Service Unavailable"

def demoEnv : Env :=
  ⟨fun _ => none, fun _ => none, fun _ => "token", demoServer, fun d n => d ++ "/" ++ n⟩

def demoEnvDown : Env :=
  ⟨fun _ => none, fun _ => none, fun _ => "token", demoServerDown, fun d n => d ++ "/" ++ n⟩

/-- Environment in which `git` is found, the target directory cannot be created and
`GITHUB_TOKEN` is not set. -/
def demoEnvTwoFailures : Env :=
  ⟨fun _ => none, fun _ => some "mkdir /r: permission denied", fun _ => "", demoServer,
    fun d n => d ++ "/" ++ n⟩

def demoCfg : Config := ⟨"acme", "/r", false, false, 2⟩

/-- Host on which nothing exists yet and every subprocess succeeds. -/
def freshHost : Host := constHost Probe.notExist ⟨none, ""⟩

/-- Host on which everything exists and every subprocess fails. -/
def brokenHost : Host := constHost Probe.found ⟨some "exit status 1", "fatal: unable to connect"⟩

/-- A schedule for two jobs and two workers in which the job taken second is answered
first. -/
def demoSched : List Action :=
  [Action.send, Action.recv 0, Action.send, Action.recv 1, Action.close,
   Action.finish 1 brokenHost, Action.drain, Action.finish 0 freshHost, Action.exit 1,
   Action.drain]

/-! ## Theorems -/

/-! ### Substring test -/

theorem containsChars_iff (s sub : List Char) : containsChars s sub = true ↔ sub <:+: s := by
  induction s with
  | nil => simp [containsChars, List.isEmpty_iff]
  | cons c cs ih =>
    simp only [containsChars, Bool.or_eq_true, ih, List.infix_cons_iff]
    rw [List.isPrefixOf_iff_prefix]

theorem stringsContains_iff (s sub : String) : stringsContains s sub = true ↔ sub.data <:+: s.data :=
  containsChars_iff _ _

theorem stringsContains_append_right (a b sub : String) (h : stringsContains b sub = true) :
    stringsContains (a ++ b) sub = true := by
  rw [stringsContains_iff] at *
  rw [String.data_append]
  exact h.trans (List.suffix_append _ _).isInfix

theorem stringsContains_append_left (a b sub : String) (h : stringsContains a sub = true) :
    stringsContains (a ++ b) sub = true := by
  rw [stringsContains_iff] at *
  rw [String.data_append]
  exact h.trans (List.prefix_append _ _).isInfix

/-! ### processRepository -/

theorem hasAuthMarker_append_right (a b : String) (h : hasAuthMarker b = true) :
    hasAuthMarker (a ++ b) = true := by
  simp only [hasAuthMarker, Bool.or_eq_true] at *
  rcases h with ((h | h) | h) | h
  · exact Or.inl (Or.inl (Or.inl (stringsContains_append_right _ _ _ h)))
  · exact Or.inl (Or.inl (Or.inr (stringsContains_append_right _ _ _ h)))
  · exact Or.inl (Or.inr (stringsContains_append_right _ _ _ h))
  · exact Or.inr (stringsContains_append_right _ _ _ h)

/-- C2: every subprocess started by `processRepository` is `git clone <url> <repoPath>`,
`git fetch --all` in `repoPath` or `git status -sb` in `repoPath`; clone and fetch together
are started at most once; `status -sb` is started only when verbose is set, only after a
fetch that returned no error, and then the trace is exactly fetch followed by status. -/
theorem processRepository_invocations (host : Host) (repo : Repository) (repoPath : String)
    (skipUpdate verbose : Bool) :
    (∀ inv ∈ (processRepository host repo repoPath skipUpdate verbose).trace,
        inv = cloneInvocation (pickCloneURL repo) repoPath ∨ inv = fetchInvocation repoPath ∨
          inv = statusInvocation repoPath) ∧
    ((processRepository host repo repoPath skipUpdate verbose).trace.countP
        (fun inv => decide (inv = cloneInvocation (pickCloneURL repo) repoPath) ||
          decide (inv = fetchInvocation repoPath))) ≤ 1 ∧
    (statusInvocation repoPath ∈ (processRepository host repo repoPath skipUpdate verbose).trace →
        verbose = true ∧ (host.exec (fetchInvocation repoPath)).err = none ∧
        (processRepository host repo repoPath skipUpdate verbose).trace =
          [fetchInvocation repoPath, statusInvocation repoPath]) := by
  have hsc : statusInvocation repoPath ≠ cloneInvocation (pickCloneURL repo) repoPath := by
    simp [statusInvocation, cloneInvocation]
  have hsf : statusInvocation repoPath ≠ fetchInvocation repoPath := by
    simp [statusInvocation, fetchInvocation]
  have hfc : fetchInvocation repoPath ≠ cloneInvocation (pickCloneURL repo) repoPath := by
    simp [fetchInvocation, cloneInvocation]
  unfold processRepository
  cases hp : host.stat repoPath <;> simp only
  case notExist =>
    cases he : (host.exec (cloneInvocation (pickCloneURL repo) repoPath)).err <;>
      simp [hsc, List.countP_cons]
  all_goals
    cases skipUpdate <;> cases verbose <;> simp
    all_goals
      cases he : (host.exec (fetchInvocation repoPath)).err <;> simp [hsf, hfc, List.countP_cons]
    all_goals
      cases hs : (host.exec (statusInvocation repoPath)).err <;>
        simp [hsf, hsc, hfc, List.countP_cons]

/-- Witness for C2: an existing repository, verbose, fetch and status both succeed. -/
theorem processRepository_invocations_witness :
    statusInvocation "/r/a" ∈ (processRepository (constHost Probe.found ⟨none, "ok"⟩)
        ⟨"a", false, "git@h:o/a.git", "https://h/o/a.git"⟩ "/r/a" false true).trace ∧
    (processRepository (constHost Probe.found ⟨none, "ok"⟩)
        ⟨"a", false, "git@h:o/a.git", "https://h/o/a.git"⟩ "/r/a" false true).trace =
      [fetchInvocation "/r/a", statusInvocation "/r/a"] :=
  ⟨by decide,
    ((processRepository_invocations (constHost Probe.found ⟨none, "ok"⟩)
      ⟨"a", false, "git@h:o/a.git", "https://h/o/a.git"⟩ "/r/a" false true).2.2 (by decide)).2.2⟩

/-- C5: when the probe of `targetPath/name` reports that the path does not exist, the worker
runs exactly one subprocess, `git clone <url> <repoPath>`, with `repoPath` the join of the
target path and the repository name and `url` the secure-shell URL when it is non-empty and
the TLS clone URL otherwise; when that subprocess returns no error the record sent is
success with message "Successfully cloned repository: <name>". -/
theorem processRepository_clone_absent (join : String → String → String) (host : Host)
    (repo : Repository) (targetPath : String) (skipUpdate verbose : Bool)
    (habsent : host.stat (join targetPath repo.name) = Probe.notExist) :
    (workerBody join targetPath skipUpdate verbose host repo).2 =
      (processRepository host repo (join targetPath repo.name) skipUpdate verbose).trace ∧
    (processRepository host repo (join targetPath repo.name) skipUpdate verbose).trace =
      [⟨"git", ["clone", if repo.sshURL ≠ "" then repo.sshURL else repo.cloneURL,
          join targetPath repo.name], none⟩] ∧
    ((host.exec ⟨"git", ["clone", if repo.sshURL ≠ "" then repo.sshURL else repo.cloneURL,
          join targetPath repo.name], none⟩).err = none →
      (workerBody join targetPath skipUpdate verbose host repo).1 =
        ⟨repo.name, true, "Successfully cloned repository: " ++ repo.name⟩ ∧
      (processRepository host repo (join targetPath repo.name) skipUpdate verbose).success = true ∧
      (processRepository host repo (join targetPath repo.name) skipUpdate verbose).message =
        "Successfully cloned repository: " ++ repo.name) := by
  have hurl : (if repo.sshURL ≠ "" then repo.sshURL else repo.cloneURL) = pickCloneURL repo := by
    unfold pickCloneURL
    by_cases h : repo.sshURL = "" <;> simp [h]
  rw [hurl]
  unfold workerBody processRepository
  simp only [habsent, cloneInvocation]
  cases he : (host.exec ⟨"git", ["clone", pickCloneURL repo, join targetPath repo.name], none⟩).err <;>
    simp

/-- Witness for C5: a descriptor with an empty secure-shell URL, absent on disk. -/
theorem processRepository_clone_absent_witness :
    (processRepository (constHost Probe.notExist ⟨none, ""⟩) ⟨"a", false, "", "https://h/o/a.git"⟩
        ((fun d n => d ++ "/" ++ n) "/r" "a") false false).trace =
      [⟨"git", ["clone", "https://h/o/a.git", "/r/a"], none⟩] ∧
    (processRepository (constHost Probe.notExist ⟨none, ""⟩) ⟨"a", false, "", "https://h/o/a.git"⟩
        ((fun d n => d ++ "/" ++ n) "/r" "a") false false).message =
      "Successfully cloned repository: a" :=
  ⟨(processRepository_clone_absent (fun d n => d ++ "/" ++ n) (constHost Probe.notExist ⟨none, ""⟩)
      ⟨"a", false, "", "https://h/o/a.git"⟩ "/r" false false rfl).2.1,
    ((processRepository_clone_absent (fun d n => d ++ "/" ++ n) (constHost Probe.notExist ⟨none, ""⟩)
      ⟨"a", false, "", "https://h/o/a.git"⟩ "/r" false false rfl).2.2 rfl).2.2⟩

/-- C6: when the local path exists and skip-update is set, `processRepository` starts no
subprocess and returns success with message "Repository exists (skipping): <name>" when
verbose is unset and "Skipping update for existing repository: <name>" when it is set. -/
theorem processRepository_skip_existing (host : Host) (repo : Repository) (repoPath : String)
    (verbose : Bool) (hfound : host.stat repoPath = Probe.found) :
    (processRepository host repo repoPath true verbose).trace = [] ∧
    (processRepository host repo repoPath true verbose).success = true ∧
    (verbose = false → (processRepository host repo repoPath true verbose).message =
      "Repository exists (skipping): " ++ repo.name) ∧
    (verbose = true → (processRepository host repo repoPath true verbose).message =
      "Skipping update for existing repository: " ++ repo.name) := by
  unfold processRepository
  cases verbose <;> simp [hfound]

/-- Witness for C6: an existing repository `a`, skip-update set, verbose unset. -/
theorem processRepository_skip_existing_witness :
    (processRepository (constHost Probe.found ⟨none, ""⟩) ⟨"a", false, "s", "c"⟩ "/r/a" true
        false).trace = [] ∧
    (processRepository (constHost Probe.found ⟨none, ""⟩) ⟨"a", false, "s", "c"⟩ "/r/a" true
        false).message = "Repository exists (skipping): a" :=
  ⟨(processRepository_skip_existing (constHost Probe.found ⟨none, ""⟩) ⟨"a", false, "s", "c"⟩
      "/r/a" false rfl).1,
    (processRepository_skip_existing (constHost Probe.found ⟨none, ""⟩) ⟨"a", false, "s", "c"⟩
      "/r/a" false rfl).2.2.1 rfl⟩

theorem processRepository_probe_aux (host : Host) (repo : Repository) (repoPath : String)
    (skipUpdate verbose : Bool) :
    (host.stat repoPath = Probe.notExist →
      (processRepository host repo repoPath skipUpdate verbose).trace =
        [cloneInvocation (pickCloneURL repo) repoPath]) ∧
    (host.stat repoPath ≠ Probe.notExist →
      ∀ inv ∈ (processRepository host repo repoPath skipUpdate verbose).trace,
        inv.args.head? ≠ some "clone") ∧
    (host.stat repoPath ≠ Probe.notExist →
      (skipUpdate = true →
        (processRepository host repo repoPath skipUpdate verbose).trace = [] ∧
        (processRepository host repo repoPath skipUpdate verbose).success = true ∧
        (processRepository host repo repoPath skipUpdate verbose).message =
          (if verbose then "Skipping update for existing repository: " ++ repo.name
            else "Repository exists (skipping): " ++ repo.name)) ∧
      (skipUpdate = false →
        ((processRepository host repo repoPath skipUpdate verbose).trace =
            [fetchInvocation repoPath] ∨
          (processRepository host repo repoPath skipUpdate verbose).trace =
            [fetchInvocation repoPath, statusInvocation repoPath]))) ∧
    (host.stat repoPath ≠ Probe.notExist →
      processRepository host repo repoPath skipUpdate verbose =
        processRepository ⟨fun _ => Probe.found, host.exec⟩ repo repoPath skipUpdate verbose) := by
  have hf : (fetchInvocation repoPath).args.head? = some "fetch" := rfl
  have hs : (statusInvocation repoPath).args.head? = some "status" := rfl
  unfold processRepository
  cases hp : host.stat repoPath <;> simp only
  case notExist =>
    cases he : (host.exec (cloneInvocation (pickCloneURL repo) repoPath)).err <;> simp
  all_goals
    cases skipUpdate <;> cases verbose <;> simp
    all_goals
      cases he : (host.exec (fetchInvocation repoPath)).err <;> simp [hf, hs]
    all_goals
      cases hst : (host.exec (statusInvocation repoPath)).err <;> simp [hf, hs]

/-- C10: `processRepository` runs `git clone <url> <repoPath>`, and nothing else, exactly when
the probe of `repoPath` fails with a does-not-exist error. When the probe fails with any
other error the path is handled as an existing repository, with the very result an existing
path gives: with skip-update set no subprocess runs and the result is success with the
"Repository exists (skipping)" or, when verbose, the "Skipping update for existing
repository" message; with skip-update unset the first subprocess is `git fetch --all` with
working directory `repoPath`, the only other one can be `git status -sb` there, and no clone
is run. -/
theorem processRepository_probe_branches (host : Host) (repo : Repository) (repoPath : String)
    (skipUpdate verbose : Bool) :
    ((∃ inv ∈ (processRepository host repo repoPath skipUpdate verbose).trace,
        inv.args.head? = some "clone") ↔ host.stat repoPath = Probe.notExist) ∧
    (host.stat repoPath = Probe.notExist →
      (processRepository host repo repoPath skipUpdate verbose).trace =
        [⟨"git", ["clone", if repo.sshURL ≠ "" then repo.sshURL else repo.cloneURL, repoPath],
          none⟩]) ∧
    (host.stat repoPath = Probe.otherError →
      processRepository host repo repoPath skipUpdate verbose =
        processRepository ⟨fun _ => Probe.found, host.exec⟩ repo repoPath skipUpdate verbose ∧
      (skipUpdate = true →
        (processRepository host repo repoPath skipUpdate verbose).trace = [] ∧
        (processRepository host repo repoPath skipUpdate verbose).success = true ∧
        (processRepository host repo repoPath skipUpdate verbose).message =
          (if verbose then "Skipping update for existing repository: " ++ repo.name
            else "Repository exists (skipping): " ++ repo.name)) ∧
      (skipUpdate = false →
        (processRepository host repo repoPath skipUpdate verbose).trace.head? =
          some ⟨"git", ["fetch", "--all"], some repoPath⟩ ∧
        ((processRepository host repo repoPath skipUpdate verbose).trace =
            [⟨"git", ["fetch", "--all"], some repoPath⟩] ∨
          (processRepository host repo repoPath skipUpdate verbose).trace =
            [⟨"git", ["fetch", "--all"], some repoPath⟩,
              ⟨"git", ["status", "-sb"], some repoPath⟩]) ∧
        ∀ inv ∈ (processRepository host repo repoPath skipUpdate verbose).trace,
          inv.args.head? ≠ some "clone")) := by
  have hurl : (if repo.sshURL ≠ "" then repo.sshURL else repo.cloneURL) = pickCloneURL repo := by
    unfold pickCloneURL
    by_cases h : repo.sshURL = "" <;> simp [h]
  obtain ⟨h1, h2, h3, h4⟩ := processRepository_probe_aux host repo repoPath skipUpdate verbose
  refine ⟨⟨?_, ?_⟩, ?_, ?_⟩
  · rintro ⟨inv, hmem, hclone⟩
    by_contra hne
    exact h2 hne inv hmem hclone
  · intro hp
    exact ⟨cloneInvocation (pickCloneURL repo) repoPath, by rw [h1 hp]; simp, rfl⟩
  · intro hp
    rw [hurl]
    exact h1 hp
  · intro hp
    have hne : host.stat repoPath ≠ Probe.notExist := by rw [hp]; decide
    refine ⟨h4 hne, (h3 hne).1, ?_⟩
    intro hskip
    have hshape := (h3 hne).2 hskip
    refine ⟨?_, hshape, h2 hne⟩
    rcases hshape with h | h <;> rw [h] <;> rfl

/-- Witness for C10: the probe fails with an error other than does-not-exist. -/
theorem processRepository_probe_branches_witness :
    (processRepository (constHost Probe.otherError ⟨some "exit status 1", ""⟩)
        ⟨"a", false, "s", "c"⟩ "/r/a" false false).trace.head? =
      some ⟨"git", ["fetch", "--all"], some "/r/a"⟩ ∧
    (processRepository (constHost Probe.otherError ⟨some "exit status 1", ""⟩)
        ⟨"a", false, "s", "c"⟩ "/r/a" true false).trace = [] ∧
    (processRepository (constHost Probe.notExist ⟨some "exit status 1", ""⟩)
        ⟨"a", false, "s", "c"⟩ "/r/a" true false).trace =
      [⟨"git", ["clone", "s", "/r/a"], none⟩] :=
  ⟨(((processRepository_probe_branches (constHost Probe.otherError ⟨some "exit status 1", ""⟩)
      ⟨"a", false, "s", "c"⟩ "/r/a" false false).2.2 rfl).2.2 rfl).1,
    (((processRepository_probe_branches (constHost Probe.otherError ⟨some "exit status 1", ""⟩)
      ⟨"a", false, "s", "c"⟩ "/r/a" true false).2.2 rfl).2.1 rfl).1,
    (processRepository_probe_branches (constHost Probe.notExist ⟨some "exit status 1", ""⟩)
      ⟨"a", false, "s", "c"⟩ "/r/a" true false).2.1 rfl⟩

/-! ### The remediation text -/

/-- Failed fetch: the remediation text is appended exactly when the captured output has a
marker. -/
theorem processRepository_fetch_failure (host : Host) (repo : Repository) (repoPath : String)
    (verbose : Bool) (e : String) (hp : host.stat repoPath ≠ Probe.notExist)
    (he : (host.exec (fetchInvocation repoPath)).err = some e) :
    processRepository host repo repoPath false verbose =
      ⟨false, "Warning: Failed to fetch for repository " ++ repo.name ++ ": " ++ e ++ "\n" ++
          (host.exec (fetchInvocation repoPath)).output ++
          (if hasAuthMarker (host.exec (fetchInvocation repoPath)).output then remediation else ""),
        [fetchInvocation repoPath]⟩ := by
  unfold processRepository
  cases hs : host.stat repoPath
  case notExist => exact absurd hs hp
  all_goals
    simp only [he, Bool.false_eq_true, if_false]
    split <;> simp

/-- Failed clone: the remediation text is appended exactly when the whole error message,
which starts with the repository name and the error text, has a marker. -/
theorem processRepository_clone_failure (host : Host) (repo : Repository) (repoPath : String)
    (skipUpdate verbose : Bool) (e : String) (hp : host.stat repoPath = Probe.notExist)
    (he : (host.exec (cloneInvocation (pickCloneURL repo) repoPath)).err = some e) :
    processRepository host repo repoPath skipUpdate verbose =
      ⟨false, "Error cloning repository " ++ repo.name ++ ": " ++ e ++ "\n" ++
          (host.exec (cloneInvocation (pickCloneURL repo) repoPath)).output ++
          (if hasAuthMarker ("Error cloning repository " ++ repo.name ++ ": " ++ e ++ "\n" ++
              (host.exec (cloneInvocation (pickCloneURL repo) repoPath)).output)
            then remediation else ""),
        [cloneInvocation (pickCloneURL repo) repoPath]⟩ := by
  unfold processRepository
  simp only [hp, he]
  split <;> simp

/-- C3 (failing input): for the repository named `auth-service`, absent on disk, whose clone
fails with error text "exit status 128" and captured output "fatal: early EOF", the output
has no marker and yet the clone branch appends the remediation text, because the marker
"auth" is found in the repository name; the fetch branch, given the same name, error and
output, does not append it. -/
theorem processRepository_clone_marker_from_name :
    hasAuthMarker "fatal: early EOF" = false ∧
    (processRepository (constHost Probe.notExist ⟨some "exit status 128", "fatal: early EOF"⟩)
        ⟨"auth-service", false, "git@github.com:acme/auth-service.git", ""⟩
        "/r/auth-service" false false).message =
      "Error cloning repository auth-service: exit status 128\nfatal: early EOF" ++ remediation ∧
    (processRepository (constHost Probe.found ⟨some "exit status 128", "fatal: early EOF"⟩)
        ⟨"auth-service", false, "git@github.com:acme/auth-service.git", ""⟩
        "/r/auth-service" false false).message =
      "Warning: Failed to fetch for repository auth-service: exit status 128\nfatal: early EOF" := by
  refine ⟨by decide, ?_, by decide⟩
  rw [processRepository_clone_failure _ _ _ _ _ "exit status 128" rfl rfl]
  have hmark : hasAuthMarker ("Error cloning repository " ++ "auth-service" ++ ": " ++
      "exit status 128" ++ "\n" ++ "fatal: early EOF") = true := by decide
  show _ ++ (if hasAuthMarker ("Error cloning repository " ++ "auth-service" ++ ": " ++
      "exit status 128" ++ "\n" ++ "fatal: early EOF") = true then remediation else "") = _
  rw [if_pos hmark]
  rfl

/-- C4 (failing input): repository `x`, absent on disk, clone fails with error text
"exit status 128" and captured output "Permission denied (publickey)": the result is a
failure whose message is the bare error message; it does not contain "Authentication error
detected". The marker test misses that output by the case of one letter: it rejects
"Permission denied (publickey)" and accepts "permission denied (publickey)". -/
theorem processRepository_capital_P_no_remediation :
    hasAuthMarker "Permission denied (publickey)" = false ∧
    hasAuthMarker "permission denied (publickey)" = true ∧
    processRepository (constHost Probe.notExist ⟨some "exit status 128", "Permission denied (publickey)"⟩)
        ⟨"x", false, "git@github.com:acme/x.git", "https://github.com/acme/x.git"⟩ "/r/x" false false =
      ⟨false, "Error cloning repository x: exit status 128\nPermission denied (publickey)",
        [cloneInvocation "git@github.com:acme/x.git" "/r/x"]⟩ ∧
    ¬ (stringsContains (processRepository
        (constHost Probe.notExist ⟨some "exit status 128", "Permission denied (publickey)"⟩)
        ⟨"x", false, "git@github.com:acme/x.git", "https://github.com/acme/x.git"⟩ "/r/x" false
        false).message "Authentication error detected" = true) := by
  decide

/-- Repository `x`, absent on disk, clone fails with any error text and with captured output
"permission denied (publickey)" in lower case: the result is a failure whose
message is the error message followed by the remediation text, which starts with
"Authentication error detected" and carries the four numbered lines. -/
theorem processRepository_lowercase_p_remediation (host : Host) (repo : Repository)
    (repoPath e : String) (skipUpdate verbose : Bool) (hname : repo.name = "x")
    (hp : host.stat repoPath = Probe.notExist)
    (he : host.exec (cloneInvocation (pickCloneURL repo) repoPath) =
      ⟨some e, "permission denied (publickey)"⟩) :
    (processRepository host repo repoPath skipUpdate verbose).success = false ∧
    (processRepository host repo repoPath skipUpdate verbose).message =
      "Error cloning repository x: " ++ e ++ "\npermission denied (publickey)" ++
        ("\n\nAuthentication error detected. Please ensure:\n" ++
         "1. Your SSH key is set up correctly with GitHub: https://docs.github.com/en/authentication/connecting-to-github-with-ssh\n" ++
         "2. Your GITHUB_TOKEN has sufficient permissions\n" ++
         "3. For SSH: Your SSH agent is running (\x27eval $(ssh-agent -s)\x27)\n" ++
         "4. For HTTPS: You may need to configure credential helper (\x27git config --global credential.helper cache\x27)") ∧
    stringsContains (processRepository host repo repoPath skipUpdate verbose).message
      "Authentication error detected" = true := by
  have herr : (host.exec (cloneInvocation (pickCloneURL repo) repoPath)).err = some e := by
    rw [he]
  have hout : (host.exec (cloneInvocation (pickCloneURL repo) repoPath)).output =
      "permission denied (publickey)" := by
    rw [he]
  have hmark : hasAuthMarker ("Error cloning repository " ++ "x" ++ ": " ++ e ++ "\n" ++
      "permission denied (publickey)") = true :=
    hasAuthMarker_append_right _ _ (by decide)
  rw [processRepository_clone_failure host repo repoPath skipUpdate verbose e hp herr, hout, hname]
  simp only [if_pos hmark]
  have hhead : "Error cloning repository " ++ "x" ++ ": " = "Error cloning repository x: " := by
    decide
  refine ⟨trivial, ?_, ?_⟩
  · rw [hhead, String.append_assoc _ "\n" "permission denied (publickey)"]
    rfl
  · exact stringsContains_append_right _ _ _ (by decide)

/-- The lower-case output with error text "exit status 128". -/
theorem processRepository_lowercase_p_remediation_witness :
    stringsContains (processRepository
        (constHost Probe.notExist ⟨some "exit status 128", "permission denied (publickey)"⟩)
        ⟨"x", false, "git@github.com:acme/x.git", ""⟩ "/r/x" false false).message
      "Authentication error detected" = true :=
  (processRepository_lowercase_p_remediation
    (constHost Probe.notExist ⟨some "exit status 128", "permission denied (publickey)"⟩)
    ⟨"x", false, "git@github.com:acme/x.git", ""⟩ "/r/x" "exit status 128" false false rfl rfl
    rfl).2.2

/-! ### The listing loop -/

theorem listLoop_servesPages (server : Nat → Int → ListResponse)
    (pages : List (List Repository × Int)) :
    ∀ (fuel call : Nat) (page : Int) (allRepos : List Repository) (requested : List Int),
      servesPages server call page pages = true → pages.length ≤ fuel →
      listLoop server fuel call page allRepos requested =
        some (Except.ok (allRepos ++ (pages.map Prod.fst).flatten),
          requested ++ page :: pages.dropLast.map Prod.snd) := by
  induction pages with
  | nil => intro fuel call page allRepos requested h; simp [servesPages] at h
  | cons p rest ih =>
    intro fuel call page allRepos requested h hfuel
    cases fuel with
    | zero => simp at hfuel
    | succ fuel =>
      cases rest with
      | nil =>
        simp only [servesPages, Bool.and_eq_true, decide_eq_true_eq] at h
        simp [listLoop, h.1, h.2]
      | cons q rest =>
        simp only [servesPages, Bool.and_eq_true, decide_eq_true_eq] at h
        obtain ⟨⟨h1, h2⟩, h3⟩ := h
        have hlen : (q :: rest).length ≤ fuel := by simpa using hfuel
        simp only [listLoop, h1, if_neg h2]
        rw [ih fuel (call + 1) p.2 (allRepos ++ p.1) (requested ++ [page]) h3 hlen]
        simp [List.dropLast]

theorem listLoop_servesThenFails (server : Nat → Int → ListResponse) (e : String)
    (pages : List (List Repository × Int)) :
    ∀ (fuel call : Nat) (page : Int) (allRepos : List Repository) (requested : List Int),
      servesThenFails server e call page pages = true → pages.length + 1 ≤ fuel →
      listLoop server fuel call page allRepos requested =
        some (Except.error ("failed to list repositories: " ++ e),
          requested ++ page :: pages.map Prod.snd) := by
  induction pages with
  | nil =>
    intro fuel call page allRepos requested h hfuel
    cases fuel with
    | zero => simp at hfuel
    | succ fuel =>
      simp only [servesThenFails, decide_eq_true_eq] at h
      simp [listLoop, h]
  | cons p rest ih =>
    intro fuel call page allRepos requested h hfuel
    cases fuel with
    | zero => simp at hfuel
    | succ fuel =>
      simp only [servesThenFails, Bool.and_eq_true, decide_eq_true_eq] at h
      obtain ⟨⟨h1, h2⟩, h3⟩ := h
      have hlen : rest.length + 1 ≤ fuel := by simpa using hfuel
      simp only [listLoop, h1, if_neg h2]
      rw [ih fuel (call + 1) p.2 (allRepos ++ p.1) (requested ++ [page]) h3 hlen]
      simp

/-- C8: when the startup checks pass and the server answers the successive requests with the
pages `pages` (non-zero cursor on all but the last, zero on the last), the listing loop, with
fuel for that many calls, makes exactly one call per page, the first asking for page 0 and
each later one for the page named by the previous cursor, and accumulates the concatenation
of the pages in order, which is what `runRootCommand` goes on with; when instead the server
fails the call that follows `pages`, the loop stops with that call and `runRootCommand`
returns the wrapped error without starting a worker or processing a repository. -/
theorem runRootCommand_listing (cfg : Config) (env : Env) (fuel : Nat) (sched : List Action)
    (pages : List (List Repository × Int)) (e : String)
    (hlook : env.lookPath "git" = none) (hmkdir : env.mkdirAll cfg.targetPath = none)
    (htoken : env.getenv "GITHUB_TOKEN" ≠ "") :
    (servesPages env.server 0 0 pages = true → pages.length ≤ fuel →
      listLoop env.server fuel 0 0 [] [] =
        some (Except.ok (pages.map Prod.fst).flatten, 0 :: pages.dropLast.map Prod.snd) ∧
      (0 :: pages.dropLast.map Prod.snd).length = pages.length ∧
      ∀ r, runRootCommand cfg env fuel sched = some r →
        r.err = none ∧ r.requested = 0 :: pages.dropLast.map Prod.snd ∧
        r.allRepos = (pages.map Prod.fst).flatten) ∧
    (servesThenFails env.server e 0 0 pages = true → pages.length + 1 ≤ fuel →
      listLoop env.server fuel 0 0 [] [] =
        some (Except.error ("failed to list repositories: " ++ e), 0 :: pages.map Prod.snd) ∧
      (0 :: pages.map Prod.snd).length = pages.length + 1 ∧
      runRootCommand cfg env fuel sched =
        some ⟨some ("failed to list repositories: " ++ e), 0 :: pages.map Prod.snd, [], 0, none⟩) := by
  constructor
  · intro hs hfuel
    have hl := listLoop_servesPages env.server pages fuel 0 0 [] [] hs hfuel
    simp only [List.nil_append] at hl
    refine ⟨hl, ?_, ?_⟩
    · cases pages with
      | nil => simp [servesPages] at hs
      | cons p rest => simp
    · intro r hr
      unfold runRootCommand at hr
      simp only [hlook, hmkdir, if_neg htoken, hl] at hr
      split at hr
      · cases hr; exact ⟨rfl, rfl, rfl⟩
      · split at hr
        · cases hr
        · split at hr
          · cases hr
          · split at hr
            · cases hr; exact ⟨rfl, rfl, rfl⟩
            · cases hr
  · intro hs hfuel
    have hl := listLoop_servesThenFails env.server e pages fuel 0 0 [] [] hs hfuel
    simp only [List.nil_append] at hl
    refine ⟨hl, by simp, ?_⟩
    unfold runRootCommand
    simp only [hlook, hmkdir, if_neg htoken, hl]

/-- Witness for C8: two pages served in two calls, and a server that fails the second call. -/
theorem runRootCommand_listing_witness :
    listLoop demoEnv.server 2 0 0 [] [] =
      some (Except.ok [demoRepoA, demoRepoB, demoRepoC], [0, 2]) ∧
    runRootCommand demoCfg demoEnvDown 2 [] =
      some ⟨some "failed to list repositories: 503 Service Unavailable", [0, 2], [], 0, none⟩ :=
  ⟨((runRootCommand_listing demoCfg demoEnv 2 []
      [([demoRepoA, demoRepoB], 2), ([demoRepoC], 0)] "" rfl rfl (by decide)).1
      (by decide) (by decide)).1,
    ((runRootCommand_listing demoCfg demoEnvDown 2 []
      [([demoRepoA, demoRepoB], 2)] "503 Service Unavailable" rfl rfl (by decide)).2
      (by decide) (by decide)).2.2⟩

/-! ### Starting the workers -/

theorem wrapInt_of_range (x : Int) (hlo : -9223372036854775808 ≤ x)
    (hhi : x < 9223372036854775808) : wrapInt x = x := by
  unfold wrapInt
  omega

theorem wrapInt_range (x : Int) :
    -9223372036854775808 ≤ wrapInt x ∧ wrapInt x < 9223372036854775808 := by
  unfold wrapInt
  omega

theorem spawnLoop_counts (p : Int) (hp : p < 9223372036854775807) :
    ∀ (fuel : Nat) (w : Int) (started : Nat), 1 ≤ w → w ≤ p + 1 → (p + 1 - w).toNat < fuel →
      spawnLoop p fuel w started = some (started + (p + 1 - w).toNat) := by
  intro fuel
  induction fuel with
  | zero => intro w started _ _ h; simp at h
  | succ fuel ih =>
    intro w started hw1 hw2 hfuel
    unfold spawnLoop
    by_cases hle : w ≤ p
    · rw [if_pos hle, wrapInt_of_range (w + 1) (by omega) (by omega)]
      rw [ih (w + 1) (started + 1) (by omega) (by omega) (by omega)]
      congr 1
      omega
    · rw [if_neg hle]
      congr 1
      omega

/-- For every flag value below the largest `int`, the loop starts exactly `p` workers when
`p > 0` and exactly 5 when `p ≤ 0`. -/
theorem spawnLoop_exact (p : Int) (hp : p < 9223372036854775807) (fuel : Nat)
    (hfuel : (coerceParallel p).toNat < fuel) :
    spawnLoop (coerceParallel p) fuel 1 0 = some (coerceParallel p).toNat ∧
    (0 < p → (coerceParallel p).toNat = p.toNat) ∧ (p ≤ 0 → (coerceParallel p).toNat = 5) := by
  have hc : coerceParallel p < 9223372036854775807 := by
    unfold coerceParallel; split <;> omega
  have hpos : 0 < coerceParallel p := by
    unfold coerceParallel; split <;> omega
  refine ⟨?_, ?_, ?_⟩
  · rw [spawnLoop_counts (coerceParallel p) hc fuel 1 0 (by omega) (by omega) (by omega)]
    congr 1
    omega
  · intro h; unfold coerceParallel; rw [if_neg (by omega)]
  · intro h; unfold coerceParallel; rw [if_pos h]; rfl

theorem spawnLoop_maxInt :
    ∀ (fuel : Nat) (w : Int) (started : Nat), w < 9223372036854775808 →
      spawnLoop 9223372036854775807 fuel w started = none := by
  intro fuel
  induction fuel with
  | zero => intro w started _; rfl
  | succ fuel ih =>
    intro w started hw
    unfold spawnLoop
    rw [if_pos (by omega)]
    exact ih _ _ (wrapInt_range (w + 1)).2

/-- C9 (failing input): with the parallel flag at 9223372036854775807, the largest `int`, the
loop that starts the workers never ends, whatever the fuel: the counter `w` wraps around
before it can exceed the limit. With the two-page listing of the examples, which has two
non-archived repositories, `runRootCommand` therefore never gets to send a job. -/
theorem spawnLoop_diverges_at_maxInt :
    (∀ fuel : Nat, spawnLoop (coerceParallel 9223372036854775807) fuel 1 0 = none) ∧
    (∀ (fuel : Nat) (sched : List Action),
      runRootCommand ⟨"acme", "/r", false, false, 9223372036854775807⟩ demoEnv fuel sched =
        none) := by
  have h1 : ∀ fuel : Nat, spawnLoop (coerceParallel 9223372036854775807) fuel 1 0 = none := by
    intro fuel
    have hc : coerceParallel 9223372036854775807 = 9223372036854775807 := by decide
    rw [hc]
    exact spawnLoop_maxInt fuel 1 0 (by omega)
  refine ⟨h1, ?_⟩
  intro fuel sched
  unfold runRootCommand
  have hl : listLoop demoEnv.server fuel 0 0 [] [] = none ∨
      listLoop demoEnv.server fuel 0 0 [] [] =
        some (Except.ok [demoRepoA, demoRepoB, demoRepoC], [0, 2]) := by
    rcases fuel with _ | _ | fuel
    · left; rfl
    · left; rfl
    · right
      exact listLoop_servesPages demoEnv.server [([demoRepoA, demoRepoB], 2), ([demoRepoC], 0)]
        (fuel + 2) 0 0 [] [] (by decide) (by simp)
  have hlook : demoEnv.lookPath "git" = none := rfl
  have hmk : demoEnv.mkdirAll "/r" = none := rfl
  have htok : ¬ demoEnv.getenv "GITHUB_TOKEN" = "" := by decide
  simp only [hlook, hmk, if_neg htok]
  rcases hl with hl | hl
  · rw [hl]
  · rw [hl]
    have hn : ¬ (nonArchived [demoRepoA, demoRepoB, demoRepoC]).length = 0 := by decide
    simp only [if_neg hn, h1]

/-! ### The worker pool: invariant -/

theorem inflight_set_busy (repo : Repository) :
    ∀ (ws : List WorkerState) (i : Nat), ws[i]? = some WorkerState.idle →
      (inflight (ws.set i (WorkerState.busy repo)) : Multiset Repository) =
        repo ::ₘ (inflight ws : Multiset Repository) := by
  intro ws
  induction ws with
  | nil => intro i h; simp at h
  | cons w ws ih =>
    intro i h
    cases i with
    | zero =>
      simp only [List.getElem?_cons_zero, Option.some.injEq] at h
      subst h
      simp [inflight]
    | succ i =>
      simp only [List.getElem?_cons_succ] at h
      have := ih i h
      cases w with
      | idle => simpa only [List.set_cons_succ, inflight] using this
      | exited => simpa only [List.set_cons_succ, inflight] using this
      | busy r =>
        simp only [List.set_cons_succ, inflight]
        rw [← Multiset.cons_coe, ← Multiset.cons_coe, this, Multiset.cons_swap]

theorem inflight_set_idle (repo : Repository) :
    ∀ (ws : List WorkerState) (i : Nat), ws[i]? = some (WorkerState.busy repo) →
      repo ::ₘ (inflight (ws.set i WorkerState.idle) : Multiset Repository) =
        (inflight ws : Multiset Repository) := by
  intro ws
  induction ws with
  | nil => intro i h; simp at h
  | cons w ws ih =>
    intro i h
    cases i with
    | zero =>
      simp only [List.getElem?_cons_zero, Option.some.injEq] at h
      subst h
      simp [inflight]
    | succ i =>
      simp only [List.getElem?_cons_succ] at h
      have := ih i h
      cases w with
      | idle => simpa only [List.set_cons_succ, inflight] using this
      | exited => simpa only [List.set_cons_succ, inflight] using this
      | busy r =>
        simp only [List.set_cons_succ, inflight]
        rw [← Multiset.cons_coe, ← Multiset.cons_coe, Multiset.cons_swap, this]

theorem inflight_set_exited :
    ∀ (ws : List WorkerState) (i : Nat), ws[i]? = some WorkerState.idle →
      inflight (ws.set i WorkerState.exited) = inflight ws := by
  intro ws
  induction ws with
  | nil => intro i h; simp at h
  | cons w ws ih =>
    intro i h
    cases i with
    | zero =>
      simp only [List.getElem?_cons_zero, Option.some.injEq] at h
      subst h
      simp [inflight]
    | succ i =>
      simp only [List.getElem?_cons_succ] at h
      cases w <;> simp only [List.set_cons_succ, inflight, ih i h]

theorem initPool_inv (cfg : Config) (join : String → String → String)
    (batch : List Repository) (workers : Nat) :
    PoolInv cfg join batch (initPool batch workers) := by
  have hin : ∀ n : Nat, inflight (List.replicate n WorkerState.idle) = [] := by
    intro n
    induction n with
    | zero => rfl
    | succ n ih => simpa [List.replicate_succ, inflight] using ih
  refine ⟨?_, ⟨[], rfl, rfl, rfl⟩, rfl⟩
  simp [initPool, hin]

theorem coe_snoc {α : Type} (l : List α) (a : α) :
    ((l ++ [a] : List α) : Multiset α) = (l : Multiset α) + {a} := by
  rw [← Multiset.coe_singleton, Multiset.coe_add]

theorem coe_cons_add {α : Type} (a : α) (l : List α) :
    ((a :: l : List α) : Multiset α) = {a} + (l : Multiset α) := by
  rw [Multiset.singleton_add, Multiset.cons_coe]

theorem poolStep_inv (cfg : Config) (join : String → String → String) (batch : List Repository)
    (s s' : PoolState) (a : Action) (hstep : poolStep cfg join s a = some s')
    (hinv : PoolInv cfg join batch s) : PoolInv cfg join batch s' := by
  obtain ⟨h1, ⟨hosts, hh, hres, hinvs⟩, h3⟩ := hinv
  cases a with
  | send =>
    simp only [poolStep] at hstep
    split at hstep
    · rename_i repo rest hts
      split at hstep
      · cases hstep
        rw [hts, coe_cons_add] at h1
        refine ⟨?_, ⟨hosts, hh, hres, hinvs⟩, h3⟩
        simp only [coe_snoc]
        rw [← h1]
        abel
      · cases hstep
    · cases hstep
  | close =>
    simp only [poolStep] at hstep
    split at hstep
    · cases hstep; exact ⟨h1, ⟨hosts, hh, hres, hinvs⟩, h3⟩
    · cases hstep
  | recv i =>
    simp only [poolStep] at hstep
    split at hstep
    · rename_i repo rest hw hj
      cases hstep
      rw [hj, coe_cons_add] at h1
      refine ⟨?_, ⟨hosts, hh, hres, hinvs⟩, h3⟩
      simp only [inflight_set_busy repo s.workers i hw, ← Multiset.singleton_add]
      rw [← h1]
      abel
    · cases hstep
  | finish i host =>
    simp only [poolStep] at hstep
    split at hstep
    · rename_i repo hw
      split at hstep
      · cases hstep
        refine ⟨?_, ⟨hosts ++ [host], ?_, ?_, ?_⟩, h3⟩
        · rw [← h1, ← inflight_set_idle repo s.workers i hw]
          simp only [coe_snoc, ← Multiset.singleton_add]
          abel
        · simp [hh]
        · simp only
          rw [List.zipWith_append _ _ _ _ _ hh.symm, ← hres]
          simp
        · simp only
          rw [List.zipWith_append _ _ _ _ _ hh.symm, List.flatten_append, ← hinvs]
          simp
      · cases hstep
    · cases hstep
  | exit i =>
    simp only [poolStep] at hstep
    split at hstep
    · rename_i hw hj
      split at hstep
      · cases hstep
        refine ⟨?_, ⟨hosts, hh, hres, hinvs⟩, h3⟩
        simpa only [inflight_set_exited s.workers i hw] using h1
      · cases hstep
    · cases hstep
  | drain =>
    simp only [poolStep] at hstep
    split at hstep
    · rename_i result rest hr
      split at hstep
      · cases hstep
        rw [hr] at hres
        refine ⟨h1, ⟨hosts, hh, ?_, hinvs⟩, h3⟩
        simpa using hres
      · cases hstep
    · cases hstep

theorem runPool_inv (cfg : Config) (join : String → String → String) (batch : List Repository)
    (sched : List Action) :
    ∀ (s s' : PoolState), runPool cfg join s sched = some s' → PoolInv cfg join batch s →
      PoolInv cfg join batch s' := by
  induction sched with
  | nil => intro s s' h hinv; simp only [runPool, Option.some.injEq] at h; exact h ▸ hinv
  | cons a rest ih =>
    intro s s' h hinv
    unfold runPool at h
    split at h
    · rename_i s1 hs1
      exact ih s1 s' h (poolStep_inv cfg join batch s s1 a hs1 hinv)
    · cases h

theorem map_repoName_zipWith (cfg : Config) (join : String → String → String) :
    ∀ (calls : List Repository) (hosts : List Host), hosts.length = calls.length →
      (List.zipWith
        (fun repo host => (workerBody join cfg.targetPath cfg.skipUpdate cfg.verbose host repo).1)
        calls hosts).map Result.repoName = calls.map Repository.name := by
  intro calls
  induction calls with
  | nil => intro hosts _; simp
  | cons c calls ih =>
    intro hosts h
    cases hosts with
    | nil => simp at h
    | cons x hosts =>
      simp only [List.length_cons, Nat.add_right_cancel_iff] at h
      simp only [List.zipWith_cons_cons, List.map_cons, ih hosts h]
      rfl

theorem poolInv_atSummary (cfg : Config) (join : String → String → String)
    (batch : List Repository) (s : PoolState) (hinv : PoolInv cfg join batch s)
    (hs : atSummary s = true) :
    (s.calls : Multiset Repository) = (batch : Multiset Repository) ∧
    (∃ hosts : List Host, hosts.length = s.calls.length ∧
      s.drained =
        List.zipWith
          (fun repo host =>
            (workerBody join cfg.targetPath cfg.skipUpdate cfg.verbose host repo).1)
          s.calls hosts ∧
      s.invocations =
        (List.zipWith
          (fun repo host =>
            (workerBody join cfg.targetPath cfg.skipUpdate cfg.verbose host repo).2)
          s.calls hosts).flatten) ∧
    s.drained.map Result.repoName = s.calls.map Repository.name ∧
    s.toSend = [] ∧ s.jobs = [] ∧ s.results = [] ∧ inflight s.workers = [] := by
  obtain ⟨h1, ⟨hosts, hh, hres, hinvs⟩, h3⟩ := hinv
  simp only [atSummary, Bool.and_eq_true, decide_eq_true_eq] at hs
  have c1 := congrArg Multiset.card h1
  have c2 := congrArg List.length hres
  simp only [Multiset.card_add, Multiset.coe_card, List.length_append, List.length_zipWith,
    hh, Nat.min_self] at c1 c2
  have e1 : s.toSend = [] := List.length_eq_zero.mp (by omega)
  have e2 : s.jobs = [] := List.length_eq_zero.mp (by omega)
  have e3 : s.results = [] := List.length_eq_zero.mp (by omega)
  have e4 : inflight s.workers = [] := List.length_eq_zero.mp (by omega)
  rw [e1, e2, e4] at h1
  rw [e3, List.append_nil] at hres
  simp only [Multiset.coe_nil, zero_add] at h1
  refine ⟨h1, ⟨hosts, hh, hres, hinvs⟩, ?_, e1, e2, e3, e4⟩
  rw [hres]
  exact map_repoName_zipWith cfg join s.calls hosts hh

theorem runRootCommand_pool (cfg : Config) (env : Env) (fuel : Nat) (sched : List Action)
    (r : RunResult) (s : PoolState) (hrun : runRootCommand cfg env fuel sched = some r)
    (hs : r.pool = some s) :
    r.err = none ∧ atSummary s = true ∧
    runPool cfg env.join (initPool (nonArchived r.allRepos) r.workers) sched = some s ∧
    spawnLoop (coerceParallel cfg.parallelLimit) fuel 1 0 = some r.workers := by
  unfold runRootCommand at hrun
  split at hrun
  · cases hrun; cases hs
  · split at hrun
    · cases hrun; cases hs
    · split at hrun
      · cases hrun; cases hs
      · split at hrun
        · cases hrun
        · cases hrun; cases hs
        · split at hrun
          · cases hrun; cases hs
          · split at hrun
            · cases hrun
            · rename_i w hw
              split at hrun
              · cases hrun
              · rename_i s1 hs1
                split at hrun
                · rename_i hat
                  cases hrun
                  cases hs
                  exact ⟨rfl, hat, hs1, hw⟩
                · cases hrun

/-- C1: whenever `runRootCommand` reaches the summary, under any schedule of the goroutines
and any number of workers, the descriptors on which `processRepository` was run are, as a
multiset, exactly the listed descriptors that are not archived (each one once, no archived
one); the results received are, in order, the records built from what `processRepository`
returned for those descriptors at `targetPath/name`, one per call, and the subprocesses
started are the ones of those calls; so the names carried by the results received are, as a
multiset, the names of the non-archived descriptors; no job or result is left over. -/
theorem runRootCommand_drains_each_once (cfg : Config) (env : Env) (fuel : Nat)
    (sched : List Action) (r : RunResult) (s : PoolState)
    (hrun : runRootCommand cfg env fuel sched = some r) (hs : r.pool = some s) :
    ((s.drained.map Result.repoName : List String) : Multiset String) =
      (((r.allRepos.filter (fun repo => !repo.archived)).map Repository.name : List String) :
        Multiset String) ∧
    (s.calls : Multiset Repository) =
      ((r.allRepos.filter (fun repo => !repo.archived) : List Repository) :
        Multiset Repository) ∧
    (∀ repo ∈ s.calls, repo.archived = false) ∧
    (∃ hosts : List Host, hosts.length = s.calls.length ∧
      s.drained =
        List.zipWith
          (fun repo host =>
            (⟨repo.name,
              (processRepository host repo (env.join cfg.targetPath repo.name) cfg.skipUpdate
                cfg.verbose).success,
              (processRepository host repo (env.join cfg.targetPath repo.name) cfg.skipUpdate
                cfg.verbose).message⟩ : Result))
          s.calls hosts ∧
      s.invocations =
        (List.zipWith
          (fun repo host =>
            (processRepository host repo (env.join cfg.targetPath repo.name) cfg.skipUpdate
              cfg.verbose).trace)
          s.calls hosts).flatten) ∧
    s.drained.length = (r.allRepos.filter (fun repo => !repo.archived)).length ∧
    s.jobs = [] ∧ s.results = [] ∧ inflight s.workers = [] := by
  obtain ⟨_, hat, hpool, _⟩ := runRootCommand_pool cfg env fuel sched r s hrun hs
  have hinv := runPool_inv cfg env.join (nonArchived r.allRepos) sched _ s hpool
    (initPool_inv cfg env.join _ _)
  have hcap : s.cap = (nonArchived r.allRepos).length := hinv.2.2
  obtain ⟨hc, hex, hnames, _, hj, hr, hi⟩ := poolInv_atSummary cfg env.join _ s hinv hat
  have hlen : s.drained.length = (nonArchived r.allRepos).length := by
    simp only [atSummary, Bool.and_eq_true, decide_eq_true_eq] at hat
    rw [hat.2, hcap]
  refine ⟨?_, hc, ?_, hex, hlen, hj, hr, hi⟩
  · rw [hnames, ← Multiset.map_coe, ← Multiset.map_coe, hc]
    rfl
  · intro repo hmem
    have : repo ∈ (s.calls : Multiset Repository) := by simpa using hmem
    rw [hc] at this
    have hm : repo ∈ nonArchived r.allRepos := by simpa using this
    simp only [nonArchived, List.mem_filter, Bool.not_eq_true'] at hm
    exact hm.2

/-- Witness for C1: two workers, the listing `a`, `b` (archived), `c`; `c` is processed and
answered before `a`. -/
theorem runRootCommand_drains_each_once_witness :
    ∃ r s, runRootCommand demoCfg demoEnv 3 demoSched = some r ∧ r.pool = some s ∧
      s.drained.map Result.repoName = ["c", "a"] ∧ s.calls = [demoRepoC, demoRepoA] ∧
      s.invocations = [fetchInvocation "/r/c", cloneInvocation "git@h:acme/a.git" "/r/a"] ∧
      ((s.drained.map Result.repoName : List String) : Multiset String) =
        (((r.allRepos.filter (fun repo => !repo.archived)).map Repository.name : List String) :
          Multiset String) :=
  ⟨_, _, rfl, rfl, rfl, rfl, rfl,
    (runRootCommand_drains_each_once demoCfg demoEnv 3 demoSched _ _ rfl rfl).1⟩

/-! ### The worker pool: a schedule that reaches the summary -/

theorem runPool_sends (cfg : Config) (join : String → String → String) (cap : Nat)
    (ws : List WorkerState) (rest : List Action) :
    ∀ (xs js : List Repository), js.length + xs.length ≤ cap →
      runPool cfg join ⟨cap, xs, js, false, ws, [], [], 0, false, [], []⟩
          (List.replicate xs.length Action.send ++ rest) =
        runPool cfg join ⟨cap, [], js ++ xs, false, ws, [], [], 0, false, [], []⟩ rest := by
  intro xs
  induction xs with
  | nil => intro js _; simp
  | cons x xs ih =>
    intro js hlen
    have hlt : js.length < cap := by simp only [List.length_cons] at hlen; omega
    have hlen2 : (js ++ [x]).length + xs.length ≤ cap := by
      simp only [List.length_cons, List.length_append, List.length_nil] at hlen ⊢; omega
    simp only [List.length_cons, List.replicate_succ, List.cons_append, runPool, poolStep,
      if_pos hlt]
    refine Eq.trans (ih (js ++ [x]) hlen2) ?_
    simp

theorem runPool_serves (cfg : Config) (join : String → String → String) (cap : Nat)
    (ws : List WorkerState) :
    ∀ (hosts : List Host) (js : List Repository) (ds : List Result) (ec : Nat) (ae : Bool)
      (calls : List Repository) (invs : List Invocation),
      hosts.length = js.length → ds.length + js.length ≤ cap →
      ∃ s, runPool cfg join ⟨cap, [], js, true, WorkerState.idle :: ws, [], ds, ec, ae, calls, invs⟩
          (hosts.flatMap
            (fun host => [Action.recv 0, Action.finish 0 host, Action.drain])) = some s ∧
        s.closed = true ∧ s.drained.length = ds.length + js.length ∧ s.cap = cap := by
  intro hosts
  induction hosts with
  | nil =>
    intro js ds ec ae calls invs hlen _
    have hjs : js = [] := List.length_eq_zero.mp hlen.symm
    subst hjs
    exact ⟨_, rfl, rfl, rfl, rfl⟩
  | cons host hosts ih =>
    intro js ds ec ae calls invs hlen hcap
    cases js with
    | nil => simp at hlen
    | cons r js =>
      simp only [List.length_cons] at hlen hcap
      have hpos : 0 < cap := by omega
      have hlt : ds.length < cap := by omega
      have hlen2 : hosts.length = js.length := by omega
      have hcap2 : (ds ++ [(workerBody join cfg.targetPath cfg.skipUpdate cfg.verbose host r).1]).length
          + js.length ≤ cap := by
        simp only [List.length_append, List.length_cons, List.length_nil]; omega
      obtain ⟨s, hs, hc, hd, hcp⟩ := ih js
        (ds ++ [(workerBody join cfg.targetPath cfg.skipUpdate cfg.verbose host r).1])
        (if (workerBody join cfg.targetPath cfg.skipUpdate cfg.verbose host r).1.success then ec
          else ec + 1)
        (if (workerBody join cfg.targetPath cfg.skipUpdate cfg.verbose host r).1.success then ae
          else if stringsContains
            (workerBody join cfg.targetPath cfg.skipUpdate cfg.verbose host r).1.message
            "Authentication error detected" then true else ae)
        (calls ++ [r])
        (invs ++ (workerBody join cfg.targetPath cfg.skipUpdate cfg.verbose host r).2)
        hlen2 hcap2
      refine ⟨s, ?_, hc, ?_, hcp⟩
      · rw [← hs]
        simp [List.flatMap_cons, runPool, poolStep, hpos, hlt]
        rfl
      · rw [hd]
        simp only [List.length_append, List.length_cons, List.length_nil]
        omega

/-- With at least one worker, the sequential schedule runs and ends at the summary, whatever
the hosts the jobs are processed against. -/
theorem seqSchedule_runs (cfg : Config) (join : String → String → String)
    (batch : List Repository) (workers : Nat) (hosts : List Host) (hw : 0 < workers)
    (hlen : hosts.length = batch.length) :
    ∃ s, runPool cfg join (initPool batch workers) (seqSchedule hosts.length hosts) = some s ∧
      atSummary s = true := by
  obtain ⟨w, rfl⟩ : ∃ w, workers = w + 1 := ⟨workers - 1, by omega⟩
  obtain ⟨s, hs, hc, hd, hcp⟩ := runPool_serves cfg join batch.length
    (List.replicate w WorkerState.idle) hosts batch [] 0 false [] [] hlen (by simp)
  refine ⟨s, ?_, ?_⟩
  · rw [← hs]
    unfold seqSchedule initPool
    rw [hlen, runPool_sends cfg join batch.length _ _ batch [] (by simp)]
    simp [runPool, poolStep, List.replicate_succ]
  · simp only [atSummary, hc, hd, hcp]
    simp

/-! ### The error returned by runRootCommand -/

theorem runRootCommand_err_iff (cfg : Config) (env : Env) (fuel : Nat) (sched : List Action)
    (r : RunResult) (hrun : runRootCommand cfg env fuel sched = some r) :
    r.err ≠ none ↔
      (env.lookPath "git" ≠ none ∨ env.mkdirAll cfg.targetPath ≠ none ∨
        env.getenv "GITHUB_TOKEN" = "" ∨
        ∃ e requested, listLoop env.server fuel 0 0 [] [] = some (Except.error e, requested)) := by
  unfold runRootCommand at hrun
  split at hrun
  · rename_i e he
    cases hrun
    simp [he]
  · rename_i hl
    split at hrun
    · rename_i e he
      cases hrun
      simp [he]
    · rename_i hm
      split at hrun
      · rename_i ht
        cases hrun
        simp [ht]
      · rename_i ht
        split at hrun
        · cases hrun
        · rename_i e requested hlist
          cases hrun
          simp [hlist]
        · rename_i allRepos requested hlist
          have hno : ¬ ∃ e req, listLoop env.server fuel 0 0 [] [] = some (Except.error e, req) := by
            rintro ⟨e, req, h⟩
            rw [hlist] at h
            cases h
          split at hrun
          · cases hrun
            simp [hl, hm, ht, hno]
          · split at hrun
            · cases hrun
            · split at hrun
              · cases hrun
              · split at hrun
                · cases hrun
                  simp [hl, hm, ht, hno]
                · cases hrun

theorem runRootCommand_returns_nil (cfg : Config) (env : Env) (fuel : Nat)
    (allRepos : List Repository) (requested : List Int) (hosts : List Host)
    (hlook : env.lookPath "git" = none) (hmkdir : env.mkdirAll cfg.targetPath = none)
    (htoken : env.getenv "GITHUB_TOKEN" ≠ "")
    (hlist : listLoop env.server fuel 0 0 [] [] = some (Except.ok allRepos, requested))
    (hp : cfg.parallelLimit < 9223372036854775807)
    (hfuel : (coerceParallel cfg.parallelLimit).toNat < fuel)
    (hhosts : hosts.length = (nonArchived allRepos).length) :
    ∃ r, runRootCommand cfg env fuel (seqSchedule hosts.length hosts) = some r ∧
      r.err = none ∧ r.allRepos = allRepos := by
  unfold runRootCommand
  simp only [hlook, hmkdir, if_neg htoken, hlist]
  by_cases hn : (nonArchived allRepos).length = 0
  · rw [if_pos hn]
    exact ⟨_, rfl, rfl, rfl⟩
  · rw [if_neg hn]
    obtain ⟨hs, _, _⟩ := spawnLoop_exact cfg.parallelLimit hp fuel hfuel
    have hpos : 0 < (coerceParallel cfg.parallelLimit).toNat := by
      unfold coerceParallel; split <;> omega
    obtain ⟨s, hrun, hat⟩ := seqSchedule_runs cfg env.join (nonArchived allRepos)
      (coerceParallel cfg.parallelLimit).toNat hosts hpos hhosts
    simp only [hs, hrun, hat, if_true]
    exact ⟨_, rfl, rfl, rfl⟩

/-- A run of `runRootCommand` that returns, under any schedule and whatever the outcome of
each repository, returns a non-nil error exactly when `git` is not found, or the target
directory cannot be created, or `GITHUB_TOKEN` is empty, or a listing call fails. The checks
are made in that order and the first failure decides the error, under every schedule and
before any later step (no listing call after a failed startup check, no worker in any
failing case). When no check fails, the parallel flag is below the largest `int` and the
fuel covers the loop that starts the workers, the run does return, with a nil error,
whichever hosts the repositories are processed against. -/
theorem runRootCommand_error_checks (cfg : Config) (env : Env) (fuel : Nat) :
    (∀ (sched : List Action) (r : RunResult), runRootCommand cfg env fuel sched = some r →
      (r.err ≠ none ↔
        (env.lookPath "git" ≠ none ∨ env.mkdirAll cfg.targetPath ≠ none ∨
          env.getenv "GITHUB_TOKEN" = "" ∨
          ∃ e requested,
            listLoop env.server fuel 0 0 [] [] = some (Except.error e, requested)))) ∧
    (∀ e, env.lookPath "git" = some e → ∀ sched : List Action,
      runRootCommand cfg env fuel sched =
        some ⟨some ("git is not installed or not in PATH: " ++ e), [], [], 0, none⟩) ∧
    (env.lookPath "git" = none → ∀ e, env.mkdirAll cfg.targetPath = some e →
      ∀ sched : List Action, runRootCommand cfg env fuel sched =
        some ⟨some ("failed to create target directory: " ++ e), [], [], 0, none⟩) ∧
    (env.lookPath "git" = none → env.mkdirAll cfg.targetPath = none →
      env.getenv "GITHUB_TOKEN" = "" → ∀ sched : List Action,
      runRootCommand cfg env fuel sched =
        some ⟨some "GITHUB_TOKEN environment variable not set. Please set it with: export GITHUB_TOKEN=\"your-personal-access-token\"",
          [], [], 0, none⟩) ∧
    (env.lookPath "git" = none → env.mkdirAll cfg.targetPath = none →
      env.getenv "GITHUB_TOKEN" ≠ "" → ∀ e requested,
      listLoop env.server fuel 0 0 [] [] = some (Except.error e, requested) →
      ∀ sched : List Action,
        runRootCommand cfg env fuel sched = some ⟨some e, requested, [], 0, none⟩) ∧
    (env.lookPath "git" = none → env.mkdirAll cfg.targetPath = none →
      env.getenv "GITHUB_TOKEN" ≠ "" → ∀ allRepos requested,
      listLoop env.server fuel 0 0 [] [] = some (Except.ok allRepos, requested) →
      cfg.parallelLimit < 9223372036854775807 →
      (coerceParallel cfg.parallelLimit).toNat < fuel →
      ∀ hosts : List Host, hosts.length = (nonArchived allRepos).length →
        ∃ r, runRootCommand cfg env fuel (seqSchedule hosts.length hosts) = some r ∧
          r.err = none ∧ r.allRepos = allRepos) := by
  refine ⟨fun sched r h => runRootCommand_err_iff cfg env fuel sched r h, ?_, ?_, ?_, ?_, ?_⟩
  · intro e he sched
    unfold runRootCommand
    simp only [he]
  · intro hl e he sched
    unfold runRootCommand
    simp only [hl, he]
  · intro hl hm ht sched
    unfold runRootCommand
    simp only [hl, hm, if_pos ht]
  · intro hl hm ht e requested hlist sched
    unfold runRootCommand
    simp only [hl, hm, if_neg ht, hlist]
  · intro hl hm ht allRepos requested hlist hp hfuel hosts hhosts
    exact runRootCommand_returns_nil cfg env fuel allRepos requested hosts hl hm ht hlist hp
      hfuel hhosts

/-- Two runs: a run in which every fetch fails returns nil; a run in which both the
target directory and the token are missing returns the error of the directory check. -/
theorem runRootCommand_error_checks_witness :
    (∃ r, runRootCommand demoCfg demoEnv 3 (seqSchedule 2 [brokenHost, brokenHost]) = some r ∧
      r.err = none ∧ r.allRepos = [demoRepoA, demoRepoB, demoRepoC]) ∧
    runRootCommand demoCfg demoEnvTwoFailures 3 [] =
      some ⟨some "failed to create target directory: mkdir /r: permission denied", [], [], 0,
        none⟩ :=
  ⟨(runRootCommand_error_checks demoCfg demoEnv 3).2.2.2.2.2 rfl rfl (by decide)
      [demoRepoA, demoRepoB, demoRepoC] [0, 2] rfl (by decide) (by decide)
      [brokenHost, brokenHost] rfl,
    (runRootCommand_error_checks demoCfg demoEnvTwoFailures 3).2.2.1 rfl
      "mkdir /r: permission denied" rfl []⟩

/-- With the parallel flag at the largest `int`, a run can only return with an error or on an
empty batch: it never gets past the loop that starts the workers. -/
theorem runRootCommand_maxInt (cfg : Config) (env : Env) (fuel : Nat) (sched : List Action)
    (r : RunResult) (hp : cfg.parallelLimit = 9223372036854775807)
    (hrun : runRootCommand cfg env fuel sched = some r) :
    r.pool = none ∧ r.workers = 0 ∧ (r.err ≠ none ∨ nonArchived r.allRepos = []) := by
  have hspawn : spawnLoop (coerceParallel cfg.parallelLimit) fuel 1 0 = none := by
    have hc : coerceParallel cfg.parallelLimit = 9223372036854775807 := by rw [hp]; decide
    rw [hc]
    exact spawnLoop_maxInt fuel 1 0 (by omega)
  unfold runRootCommand at hrun
  split at hrun
  · cases hrun; simp
  · split at hrun
    · cases hrun; simp
    · split at hrun
      · cases hrun; simp
      · split at hrun
        · cases hrun
        · cases hrun; simp
        · split at hrun
          · rename_i hn
            cases hrun
            exact ⟨rfl, rfl, Or.inr (List.length_eq_zero.mp hn)⟩
          · rw [hspawn] at hrun
            cases hrun

/-- C7 (failing input): `git` is found, the target directory can be created, `GITHUB_TOKEN` is
set and both listing calls succeed, with two non-archived repositories listed; with the
parallel flag at 9223372036854775807 `runRootCommand` nevertheless returns nothing, neither
nil nor an error, whatever the fuel and the schedule: the loop that starts the workers never
ends. -/
theorem runRootCommand_never_returns_at_maxInt :
    demoEnv.lookPath "git" = none ∧ demoEnv.mkdirAll "/r" = none ∧
    demoEnv.getenv "GITHUB_TOKEN" ≠ "" ∧
    listLoop demoEnv.server 2 0 0 [] [] =
      some (Except.ok [demoRepoA, demoRepoB, demoRepoC], [0, 2]) ∧
    nonArchived [demoRepoA, demoRepoB, demoRepoC] = [demoRepoA, demoRepoC] ∧
    (∀ (fuel : Nat) (sched : List Action),
      runRootCommand ⟨"acme", "/r", true, true, 9223372036854775807⟩ demoEnv fuel sched =
        none) := by
  refine ⟨rfl, rfl, by decide, rfl, by decide, ?_⟩
  intro fuel sched
  cases hrun : runRootCommand ⟨"acme", "/r", true, true, 9223372036854775807⟩ demoEnv fuel sched with
  | none => rfl
  | some r =>
    exfalso
    obtain ⟨_, _, hor⟩ := runRootCommand_maxInt _ demoEnv fuel sched r rfl hrun
    have hl : listLoop demoEnv.server fuel 0 0 [] [] = none ∨
        listLoop demoEnv.server fuel 0 0 [] [] =
          some (Except.ok [demoRepoA, demoRepoB, demoRepoC], [0, 2]) := by
      rcases fuel with _ | _ | fuel
      · left; rfl
      · left; rfl
      · right
        exact listLoop_servesPages demoEnv.server
          [([demoRepoA, demoRepoB], 2), ([demoRepoC], 0)] (fuel + 2) 0 0 [] [] (by decide)
          (by simp)
    rcases hor with herr | hempty
    · have hiff := runRootCommand_err_iff _ demoEnv fuel sched r hrun
      rcases hiff.mp herr with h | h | h | ⟨e, req, h⟩
      · exact h rfl
      · exact h rfl
      · exact absurd h (by decide)
      · rcases hl with hl | hl <;> rw [hl] at h <;> cases h
    · have hall : r.allRepos = [demoRepoA, demoRepoB, demoRepoC] ∨ r.err ≠ none := by
        unfold runRootCommand at hrun
        have hlook : demoEnv.lookPath "git" = none := rfl
        have hmk : demoEnv.mkdirAll "/r" = none := rfl
        have htok : ¬ demoEnv.getenv "GITHUB_TOKEN" = "" := by decide
        simp only [hlook, hmk, if_neg htok] at hrun
        rcases hl with hl | hl
        · rw [hl] at hrun; cases hrun
        · rw [hl] at hrun
          simp only at hrun
          split at hrun
          · cases hrun; exact Or.inl rfl
          · split at hrun
            · cases hrun
            · split at hrun
              · cases hrun
              · split at hrun
                · cases hrun; exact Or.inl rfl
                · cases hrun
      rcases hall with hall | herr
      · rw [hall] at hempty
        exact absurd hempty (by decide)
      · have hiff := runRootCommand_err_iff _ demoEnv fuel sched r hrun
        rcases hiff.mp herr with h | h | h | ⟨e, req, h⟩
        · exact h rfl
        · exact h rfl
        · exact absurd h (by decide)
        · rcases hl with hl | hl <;> rw [hl] at h <;> cases h

end GithubPokemon
